import Mathlib

/-!
# Attendance bot: shallow embedding and verification

Shallow embedding of the command handlers of `src/index.js` (a Discord
attendance bot backed by one SQLite table `attendance`), together with
theorems settling the specification claims.

Modelling conventions:
* The SQLite table is a `Store`: a list of `Record` rows plus the
  AUTOINCREMENT sequence counter `seq` (the largest id ever assigned;
  `INSERT` assigns `seq + 1`, which is what `result.lastID` reports).
* Nullable SQL columns / possibly-null JS values are `Option`.
* JavaScript truthiness of `x || y` on strings (falsy: `null`, `""`)
  and on integers (falsy: `null`, `0`) is modelled explicitly by
  `jsOrStr` / `jsOrInt`.
* `ORDER BY datetime(createdAt) DESC LIMIT ?` is modelled as a stable
  merge sort, descending, on the key SQLite's `datetime()` computes from
  `createdAt` — the timestamp truncated to whole seconds (`dtKey`) —
  followed by `take`; rows equal at second granularity are ties.
* The wall clock (`new Date().toISOString()`) is passed in as the
  parameter `now`.
-/

/-- A proof attachment as the handlers see it: `proof.url` and `proof.name`. -/
structure Attachment where
  url : String
  name : String
deriving DecidableEq, Repr

/-- One row of the `attendance` table (`CREATE TABLE` at src/index.js:30-42). -/
structure Record where
  id : Nat
  userId : String
  userName : String
  subject : String
  status : String
  reason : Option String
  fileUrl : Option String
  fileName : Option String
  createdAt : String
deriving DecidableEq, Repr

/-- The persistent store: the `attendance` table rows in insertion order,
plus the AUTOINCREMENT counter (largest id assigned so far). -/
structure Store where
  seq : Nat
  rows : List Record
deriving DecidableEq, Repr

/-- The empty store (freshly created table). -/
def Store.init : Store := ⟨0, []⟩

/-- JavaScript `x || y` where `x` is a string-or-null: `null` and `""` are
falsy (src/index.js:160 `reasonOpt || (...)`). -/
def jsOrStr (x : Option String) (y : Option String) : Option String :=
  match x with
  | none => y
  | some s => if s = "" then y else some s

/-- JavaScript `x || y` where `x` is an integer-or-null: `null` and `0` are
falsy (src/index.js:234 `interaction.options.getInteger("limit") || 5`). -/
def jsOrInt (x : Option Int) (y : Int) : Int :=
  match x with
  | none => y
  | some n => if n = 0 then y else n

/-- The `attend_add` handler (src/index.js:154-197): computes the stored
`reason` by JS truthiness, inserts one row with id `seq + 1`, and returns
that row (the reply shows `result.lastID` and the inserted fields). -/
def attendAdd (s : Store) (uid uname subject status : String)
    (reasonOpt : Option String) (proof : Option Attachment) (now : String) :
    Record × Store :=
  let reason := jsOrStr reasonOpt (if status = "absent" then some "Not provided" else none)
  let row : Record :=
    { id := s.seq + 1
      userId := uid
      userName := uname
      subject := subject
      status := status
      reason := reason
      fileUrl := proof.map Attachment.url
      fileName := proof.map Attachment.name
      createdAt := now }
  (row, { seq := s.seq + 1, rows := s.rows ++ [row] })

/-- Outcome of the `attend_updatefile` handler: either the fixed
"not found" reply, or the confirmation embed's fields. -/
inductive UpdateOutcome where
  | notFound (content : String)
  | updated (id : Nat) (subject : String) (status : String) (file : String)
deriving DecidableEq, Repr

/-- The ownership lookup of `attend_updatefile`
(src/index.js:203-206: `SELECT * FROM attendance WHERE id = ? AND userId = ?`). -/
def findOwned (s : Store) (id : Nat) (uid : String) : Option Record :=
  s.rows.find? (fun r => r.id == id && r.userId == uid)

/-- The fixed reply when the lookup finds nothing (src/index.js:210). -/
def notFoundMsg : String := "❌ No attendance found with that ID (for you)."

/-- Overwrite the proof columns of a row when its id matches
(src/index.js:216-219: `UPDATE attendance SET fileUrl = ?, fileName = ? WHERE id = ?`). -/
def updProof (id : Nat) (proof : Attachment) (r : Record) : Record :=
  if r.id = id then { r with fileUrl := some proof.url, fileName := some proof.name } else r

/-- The `attend_updatefile` handler (src/index.js:199-231): look up the row
by `(id, userId)`; if absent reply "not found" and leave the store alone;
otherwise run the `UPDATE ... WHERE id = ?` and confirm. -/
def attendUpdatefile (s : Store) (uid : String) (id : Nat) (proof : Attachment) :
    UpdateOutcome × Store :=
  match findOwned s id uid with
  | none => (.notFound notFoundMsg, s)
  | some r =>
      (.updated id r.subject r.status proof.name,
       { s with rows := s.rows.map (updProof id proof) })

/-- The effective limit of `attend_list` (src/index.js:234-236):
`let limit = getInteger("limit") || 5; if (limit > 20) limit = 20;
if (limit < 1) limit = 1;`. -/
def effectiveLimit (limitOpt : Option Int) : Int :=
  let l := jsOrInt limitOpt 5
  let l := if l > 20 then 20 else l
  if l < 1 then 1 else l

/-- The sort key of `ORDER BY datetime(createdAt) DESC`: SQLite's
`datetime()` renders `YYYY-MM-DD HH:MM:SS`, truncating the fractional
seconds of the stored ISO-8601 string `YYYY-MM-DDTHH:MM:SS.mmmZ`, so the
key is the first 19 characters `YYYY-MM-DDTHH:MM:SS` of `createdAt`
(replacing the `T` by a space at the same position in every key does not
change any comparison between keys of this common format). Two rows whose
timestamps agree to the second have equal keys and are ties. -/
def dtKey (r : Record) : String := r.createdAt.take 19

/-- Descending order on the `datetime(createdAt)` key, as a Bool relation
for the stable merge sort modelling `ORDER BY datetime(createdAt) DESC`. -/
def dtDesc (a b : Record) : Bool := decide (dtKey b ≤ dtKey a)

/-- The `attend_list` query (src/index.js:238-244):
`SELECT * FROM attendance WHERE userId = ? ORDER BY datetime(createdAt) DESC
LIMIT ?`, with the limit already clamped. -/
def attendList (s : Store) (uid : String) (limitOpt : Option Int) : List Record :=
  (((s.rows.filter (fun r => r.userId == uid)).mergeSort dtDesc)).take
    (effectiveLimit limitOpt).toNat

/-- Store states reachable from a fresh table by any interleaving of
`attend_add` and `attend_updatefile` calls (the only mutating commands). -/
inductive Reachable : Store → Prop where
  | init : Reachable Store.init
  | add (s : Store) (uid uname subject status : String)
      (reasonOpt : Option String) (proof : Option Attachment) (now : String) :
      Reachable s → Reachable (attendAdd s uid uname subject status reasonOpt proof now).2
  | update (s : Store) (uid : String) (id : Nat) (proof : Attachment) :
      Reachable s → Reachable (attendUpdatefile s uid id proof).2

/-- A concrete row used to instantiate theorems with hypotheses. -/
def demoRow : Record :=
  { id := 1
    userId := "alice-id"
    userName := "alice#0001"
    subject := "Math"
    status := "present"
    reason := none
    fileUrl := none
    fileName := none
    createdAt := "2024-01-01T00:00:00.000Z" }

/-- A concrete one-row store used to instantiate theorems with hypotheses. -/
def demoStore : Store := ⟨1, [demoRow]⟩

/-- The limit policy as the specification words it: pure clamping into
`[1, 20]`, with the default 5 only for an omitted argument. Stated from the
spec, to be compared with `effectiveLimit` from the source. -/
def clampSpec (limitOpt : Option Int) : Int :=
  match limitOpt with
  | none => 5
  | some n => max 1 (min 20 n)

/-- C1 counterexample: the claim says an explicit limit of `0` is effectively
`1`; the code's `limit || 5` treats `0` as falsy, so an explicit `0` is
effectively `5`, not the clamp `clampSpec (some 0) = 1`. -/
theorem effectiveLimit_zero_ne_clampSpec :
    effectiveLimit (some 0) = 5 ∧ clampSpec (some 0) = 1 ∧
      effectiveLimit (some 0) ≠ clampSpec (some 0) := by
  refine ⟨rfl, rfl, ?_⟩
  decide

/-- C1 (amended): the effective limit first replaces a falsy limit (omitted
or explicitly `0`) with the default `5`, then clamps into `[1, 20]`; so an
explicit nonzero limit is clamped (`25 ↦ 20`, `-3 ↦ 1`), an explicit `0`
yields `5`, and an omitted limit yields `5`. -/
theorem effectiveLimit_eq :
    ∀ limitOpt : Option Int,
      effectiveLimit limitOpt =
        match limitOpt with
        | none => 5
        | some n => if n = 0 then 5 else max 1 (min 20 n) := by
  intro limitOpt
  cases limitOpt with
  | none => rfl
  | some n =>
      simp only [effectiveLimit, jsOrInt]
      split_ifs <;> omega

/-- C2: when the `reason` argument is omitted, the record stored (appended
as the last row) has reason `"Not provided"` if `status = absent`, and
reason `null` if `status = present`. -/
theorem attendAdd_reason_omitted :
    ∀ (s : Store) (uid uname subject : String) (proof : Option Attachment) (now : String),
      ((attendAdd s uid uname subject "absent" none proof now).2.rows.getLast? =
          some (attendAdd s uid uname subject "absent" none proof now).1 ∧
        (attendAdd s uid uname subject "absent" none proof now).1.reason =
          some "Not provided") ∧
      ((attendAdd s uid uname subject "present" none proof now).2.rows.getLast? =
          some (attendAdd s uid uname subject "present" none proof now).1 ∧
        (attendAdd s uid uname subject "present" none proof now).1.reason = none) := by
  intro s uid uname subject proof now
  refine ⟨⟨?_, rfl⟩, ⟨?_, rfl⟩⟩ <;> simp [attendAdd]

/-- C3 counterexample: the claim says an explicitly supplied empty-string
reason is stored verbatim; the code's `reasonOpt || (...)` treats `""` as
falsy, so with `status = absent` the stored reason is `"Not provided"`,
not `""`. -/
theorem attendAdd_reason_empty_not_verbatim :
    (attendAdd Store.init "u1" "alice" "Math" "absent" (some "") none "2024-01-01T00:00:00.000Z").1.reason
        = some "Not provided" ∧
      (attendAdd Store.init "u1" "alice" "Math" "absent" (some "") none "2024-01-01T00:00:00.000Z").1.reason
        ≠ some "" := by
  refine ⟨rfl, ?_⟩
  decide

/-- C3 (amended): an explicitly supplied empty-string reason is treated
exactly like an omitted reason — the substitution policy applies
(`absent ↦ "Not provided"`, `present ↦ null`) — because the handler
branches on JS truthiness, not on presence. -/
theorem attendAdd_reason_empty_eq_omitted :
    ∀ (s : Store) (uid uname subject status : String) (proof : Option Attachment) (now : String),
      (attendAdd s uid uname subject status (some "") proof now).1.reason =
          (attendAdd s uid uname subject status none proof now).1.reason ∧
        (attendAdd s uid uname subject status (some "") proof now).1.reason =
          (if status = "absent" then some "Not provided" else none) := by
  intro s uid uname subject status proof now
  constructor <;> simp [attendAdd, jsOrStr]

/-- C10: `attend_add` only appends one new row: the new store's rows are
exactly the old rows followed by the returned record, so every pre-existing
record is still present, unchanged and in place, and exactly one row is
added. -/
theorem attendAdd_frame :
    ∀ (s : Store) (uid uname subject status : String)
      (reasonOpt : Option String) (proof : Option Attachment) (now : String),
      (attendAdd s uid uname subject status reasonOpt proof now).2.rows =
          s.rows ++ [(attendAdd s uid uname subject status reasonOpt proof now).1] ∧
        (attendAdd s uid uname subject status reasonOpt proof now).2.rows.length =
          s.rows.length + 1 := by
  intro s uid uname subject status reasonOpt proof now
  constructor
  · rfl
  · simp [attendAdd]

/-- `updProof` never changes the `id` column. -/
theorem updProof_id (id : Nat) (p : Attachment) (q : Record) :
    (updProof id p q).id = q.id := by
  simp only [updProof]
  split <;> rfl

/-- `updProof` never changes the `userId` column. -/
theorem updProof_userId (id : Nat) (p : Attachment) (q : Record) :
    (updProof id p q).userId = q.userId := by
  simp only [updProof]
  split <;> rfl

/-- `updProof` leaves a row with a different id completely unchanged. -/
theorem updProof_ne (id : Nat) (p : Attachment) (q : Record) (h : q.id ≠ id) :
    updProof id p q = q := by
  simp [updProof, h]

/-- A second proof overwrite absorbs the first (row-level last-write-wins). -/
theorem updProof_comp (id : Nat) (p1 p2 : Attachment) (q : Record) :
    updProof id p2 (updProof id p1 q) = updProof id p2 q := by
  by_cases h : q.id = id <;> simp [updProof, h]

/-- The ownership lookup is blind to proof overwrites: after the `UPDATE`,
`find?` returns the overwritten row. -/
theorem findOwned_map_updProof (s : Store) (uid : String) (id id' : Nat)
    (p : Attachment) :
    findOwned { s with rows := s.rows.map (updProof id' p) } id uid =
      (findOwned s id uid).map (updProof id' p) := by
  have hfun : ((fun r : Record => r.id == id && r.userId == uid) ∘ updProof id' p) =
      (fun r : Record => r.id == id && r.userId == uid) := by
    funext q
    simp [Function.comp, updProof_id, updProof_userId]
  simp only [findOwned]
  rw [List.find?_map, hfun]

/-- C4: when no row matches `(id, caller)` — the id is unknown or the row
belongs to another owner — `attend_updatefile` replies with the one fixed
"not found" message (the same in both cases) and leaves the store
unchanged. -/
theorem attendUpdatefile_notFound (s : Store) (uid : String) (id : Nat)
    (proof : Attachment)
    (h : ∀ q ∈ s.rows, ¬(q.id = id ∧ q.userId = uid)) :
    attendUpdatefile s uid id proof = (.notFound notFoundMsg, s) := by
  have hf : findOwned s id uid = none := by
    simp only [findOwned, List.find?_eq_none]
    intro q hq
    have := h q hq
    simp only [Bool.and_eq_true, beq_iff_eq]
    tauto
  simp [attendUpdatefile, hf]

/-- C4 witness: caller `bob-id` does not own row 1 of the demo store
(it belongs to `alice-id`), so the call reports "not found" and returns
the store unchanged. -/
theorem attendUpdatefile_notFound_witness :
    attendUpdatefile demoStore "bob-id" 1 ⟨"u", "f.pdf"⟩ =
      (.notFound notFoundMsg, demoStore) :=
  attendUpdatefile_notFound demoStore "bob-id" 1 ⟨"u", "f.pdf"⟩ (by decide)

/-- Mapping a function that fixes every element of a list is the identity. -/
theorem map_eq_self_of {α : Type} {l : List α} {f : α → α}
    (h : ∀ x ∈ l, f x = x) : l.map f = l := by
  induction l with
  | nil => rfl
  | cons a t ih =>
      rw [List.map_cons, h a (List.mem_cons_self a t), ih]
      intro x hx
      exact h x (List.mem_cons_of_mem a hx)

/-- C5: when `attend_updatefile` finds a row owned by the caller (and ids
are unique, as the primary key guarantees), the update rewrites exactly
that one row in place, changing only its `fileUrl`/`fileName` columns;
every other row, the row order, the sequence counter, and all remaining
columns of the found row are unchanged, and the confirmation echoes the
old `subject`/`status` with the new file name. -/
theorem attendUpdatefile_found_frame (s : Store) (uid : String) (id : Nat)
    (p : Attachment) (r : Record)
    (hnd : (s.rows.map Record.id).Nodup)
    (hfind : findOwned s id uid = some r) :
    r.id = id ∧ r.userId = uid ∧
      ∃ pre post,
        s.rows = pre ++ r :: post ∧
        (attendUpdatefile s uid id p).2.rows =
          pre ++ { r with fileUrl := some p.url, fileName := some p.name } :: post ∧
        (attendUpdatefile s uid id p).2.seq = s.seq ∧
        (attendUpdatefile s uid id p).1 =
          UpdateOutcome.updated id r.subject r.status p.name := by
  have hfind' : s.rows.find? (fun q => q.id == id && q.userId == uid) = some r := hfind
  have hp := List.find?_some hfind'
  simp only [Bool.and_eq_true, beq_iff_eq] at hp
  have hrid : r.id = id := hp.1
  have hruid : r.userId = uid := hp.2
  obtain ⟨-, pre, post, hsplit, -⟩ := List.find?_eq_some.mp hfind'
  have hnd' : ((pre ++ r :: post).map Record.id).Nodup := hsplit ▸ hnd
  rw [List.map_append, List.map_cons] at hnd'
  have hnotmem : r.id ∉ pre.map Record.id ++ post.map Record.id :=
    (List.nodup_cons.mp (List.nodup_middle.mp hnd')).1
  have hprene : ∀ x ∈ pre, x.id ≠ id := by
    intro x hx hxid
    exact hnotmem (List.mem_append_left _
      (by rw [hrid, ← hxid]; exact List.mem_map_of_mem Record.id hx))
  have hpostne : ∀ x ∈ post, x.id ≠ id := by
    intro x hx hxid
    exact hnotmem (List.mem_append_right _
      (by rw [hrid, ← hxid]; exact List.mem_map_of_mem Record.id hx))
  refine ⟨hrid, hruid, pre, post, hsplit, ?_, ?_, ?_⟩
  · simp only [attendUpdatefile, hfind]
    rw [hsplit, List.map_append, List.map_cons]
    rw [map_eq_self_of (fun x hx => updProof_ne id p x (hprene x hx))]
    rw [map_eq_self_of (fun x hx => updProof_ne id p x (hpostne x hx))]
    simp [updProof, hrid]
  · simp [attendUpdatefile, hfind]
  · simp [attendUpdatefile, hfind]

/-- C5 witness: updating the proof of row 1 of the demo store as its owner
rewrites exactly that row's proof columns. -/
theorem attendUpdatefile_found_frame_witness :
    demoRow.id = 1 ∧ demoRow.userId = "alice-id" ∧
      ∃ pre post,
        demoStore.rows = pre ++ demoRow :: post ∧
        (attendUpdatefile demoStore "alice-id" 1 ⟨"u2", "g.pdf"⟩).2.rows =
          pre ++ { demoRow with fileUrl := some "u2", fileName := some "g.pdf" } :: post ∧
        (attendUpdatefile demoStore "alice-id" 1 ⟨"u2", "g.pdf"⟩).2.seq = demoStore.seq ∧
        (attendUpdatefile demoStore "alice-id" 1 ⟨"u2", "g.pdf"⟩).1 =
          UpdateOutcome.updated 1 demoRow.subject demoRow.status "g.pdf" :=
  attendUpdatefile_found_frame demoStore "alice-id" 1 ⟨"u2", "g.pdf"⟩ demoRow
    (by decide) (by decide)

/-- C6: for a row owned by the caller, two sequential `attend_updatefile`
calls with attachments `p1` then `p2` leave the store in exactly the state
a single call with `p2` produces, and the stored row carries `p2`'s url
and name — the first attachment leaves no trace (last-write-wins). -/
theorem attendUpdatefile_last_write_wins (s : Store) (uid : String) (id : Nat)
    (p1 p2 : Attachment) (r : Record)
    (hfind : findOwned s id uid = some r) :
    (attendUpdatefile (attendUpdatefile s uid id p1).2 uid id p2).2 =
        (attendUpdatefile s uid id p2).2 ∧
      findOwned (attendUpdatefile (attendUpdatefile s uid id p1).2 uid id p2).2 id uid =
        some { r with fileUrl := some p2.url, fileName := some p2.name } := by
  have hfind' : s.rows.find? (fun q => q.id == id && q.userId == uid) = some r := hfind
  have hp := List.find?_some hfind'
  simp only [Bool.and_eq_true, beq_iff_eq] at hp
  have hrid : r.id = id := hp.1
  have h1 : (attendUpdatefile s uid id p1).2 =
      { s with rows := s.rows.map (updProof id p1) } := by
    simp [attendUpdatefile, hfind]
  have hf1 : findOwned { s with rows := s.rows.map (updProof id p1) } id uid =
      some (updProof id p1 r) := by
    rw [findOwned_map_updProof, hfind]
    rfl
  have hmap : (s.rows.map (updProof id p1)).map (updProof id p2) =
      s.rows.map (updProof id p2) := by
    rw [List.map_map]
    exact List.map_congr_left (fun q _ => updProof_comp id p1 p2 q)
  have h2 : (attendUpdatefile { s with rows := s.rows.map (updProof id p1) } uid id p2).2 =
      { s with rows := s.rows.map (updProof id p2) } := by
    simp only [attendUpdatefile, hf1]
    rw [hmap]
  have h3 : (attendUpdatefile s uid id p2).2 =
      { s with rows := s.rows.map (updProof id p2) } := by
    simp [attendUpdatefile, hfind]
  constructor
  · rw [h1, h2, h3]
  · rw [h1, h2, findOwned_map_updProof, hfind]
    simp [updProof, hrid]

/-- C6 witness: two proof updates on the demo row leave exactly the second
attachment stored. -/
theorem attendUpdatefile_last_write_wins_witness :
    (attendUpdatefile (attendUpdatefile demoStore "alice-id" 1 ⟨"u1", "a.pdf"⟩).2
        "alice-id" 1 ⟨"u2", "b.pdf"⟩).2 =
        (attendUpdatefile demoStore "alice-id" 1 ⟨"u2", "b.pdf"⟩).2 ∧
      findOwned (attendUpdatefile (attendUpdatefile demoStore "alice-id" 1
          ⟨"u1", "a.pdf"⟩).2 "alice-id" 1 ⟨"u2", "b.pdf"⟩).2 1 "alice-id" =
        some { demoRow with fileUrl := some "u2", fileName := some "b.pdf" } :=
  attendUpdatefile_last_write_wins demoStore "alice-id" 1 ⟨"u1", "a.pdf"⟩
    ⟨"u2", "b.pdf"⟩ demoRow (by decide)

/-- In every reachable store, every stored id is at most the sequence
counter (AUTOINCREMENT never reuses or exceeds its high-water mark). -/
theorem ids_le_seq_of_reachable {s : Store} (h : Reachable s) :
    ∀ q ∈ s.rows, q.id ≤ s.seq := by
  induction h with
  | init => intro q hq; simp [Store.init] at hq
  | add s uid uname subject status reasonOpt proof now _ ih =>
      intro q hq
      simp only [attendAdd, List.mem_append, List.mem_singleton] at hq
      rcases hq with hq | hq
      · exact Nat.le_succ_of_le (ih q hq)
      · subst hq; exact Nat.le_refl _
  | update s uid id proof _ ih =>
      intro q hq
      cases hfo : findOwned s id uid with
      | none =>
          simp only [attendUpdatefile, hfo] at hq ⊢
          exact ih q hq
      | some r =>
          simp only [attendUpdatefile, hfo] at hq ⊢
          obtain ⟨x, hx, rfl⟩ := List.mem_map.mp hq
          rw [updProof_id]
          exact ih x hx

/-- C9: against any reachable store, the id `attend_add` returns
(`result.lastID`) is strictly greater than the id of every record already
in the store — ids are assigned monotonically and never reused. -/
theorem attendAdd_fresh_id_gt (s : Store) (uid uname subject status : String)
    (reasonOpt : Option String) (proof : Option Attachment) (now : String)
    (h : Reachable s) :
    ∀ q ∈ s.rows,
      q.id < (attendAdd s uid uname subject status reasonOpt proof now).1.id := by
  intro q hq
  have hle := ids_le_seq_of_reachable h q hq
  simp only [attendAdd]
  omega

/-- A store holding one record added by `alice-id`, used as a concrete
reachable state. -/
def demoAddStore : Store :=
  (attendAdd Store.init "alice-id" "alice#0001" "Math" "present" none none
    "2024-01-01T00:00:00.000Z").2

/-- The record added in `demoAddStore`. -/
def demoAddRow : Record :=
  (attendAdd Store.init "alice-id" "alice#0001" "Math" "present" none none
    "2024-01-01T00:00:00.000Z").1

/-- C9 witness: in the one-record reachable store, a second add returns a
strictly larger id than the stored record's. -/
theorem attendAdd_fresh_id_gt_witness :
    demoAddRow.id <
      (attendAdd demoAddStore "bob-id" "bob#0002" "Physics" "absent" none none
        "2024-01-02T00:00:00.000Z").1.id :=
  attendAdd_fresh_id_gt demoAddStore "bob-id" "bob#0002" "Physics" "absent" none none
    "2024-01-02T00:00:00.000Z"
    (Reachable.add Store.init "alice-id" "alice#0001" "Math" "present" none none
      "2024-01-01T00:00:00.000Z" Reachable.init)
    demoAddRow (by decide)

/-- C7: for every reachable store, the `attend_list` result never contains
a record whose `userId` differs from the caller's. -/
theorem attendList_only_owner (s : Store) (uid : String) (limitOpt : Option Int)
    (_h : Reachable s) :
    ∀ q ∈ attendList s uid limitOpt, q.userId = uid := by
  intro q hq
  simp only [attendList] at hq
  have hq1 := List.mem_of_mem_take hq
  have hq2 := List.mem_mergeSort.mp hq1
  have hmem := List.of_mem_filter hq2
  simpa using hmem

/-- C7 witness: listing as `alice-id` in the one-record reachable store
returns only records owned by `alice-id`. -/
theorem attendList_only_owner_witness :
    demoAddRow.userId = "alice-id" :=
  attendList_only_owner demoAddStore "alice-id" (some 3)
    (Reachable.add Store.init "alice-id" "alice#0001" "Math" "present" none none
      "2024-01-01T00:00:00.000Z" Reachable.init)
    demoAddRow
    (by simp [attendList, demoAddStore, demoAddRow, attendAdd, Store.init,
          effectiveLimit, jsOrInt])

/-- The descending `datetime(createdAt)` relation is transitive. -/
theorem dtDesc_trans (a b c : Record) (h1 : dtDesc a b) (h2 : dtDesc b c) :
    dtDesc a c := by
  simp only [dtDesc, decide_eq_true_eq] at h1 h2 ⊢
  exact le_trans h2 h1

/-- The descending `datetime(createdAt)` relation is total. -/
theorem dtDesc_total (a b : Record) : dtDesc a b || dtDesc b a := by
  simp only [dtDesc, Bool.or_eq_true, decide_eq_true_eq]
  exact le_total _ _

/-- C8: every `attend_list` result (i) has at most the effective limit many
records, (ii) contains only the caller's records, (iii) is ordered by the
`datetime(createdAt)` key descending (most recent first, at the whole-second
granularity `datetime()` compares), and (iv) keeps records that are ties
under that key — timestamps equal once fractional seconds are truncated —
in their insertion order: restricted to any fixed key value, the result is
a sublist of the store's rows in stored order (the merge sort is stable). -/
theorem attendList_spec (s : Store) (uid : String) (limitOpt : Option Int) :
    (attendList s uid limitOpt).length ≤ (effectiveLimit limitOpt).toNat ∧
      (∀ q ∈ attendList s uid limitOpt, q.userId = uid) ∧
      (attendList s uid limitOpt).Pairwise (fun a b => dtKey b ≤ dtKey a) ∧
      ∀ t : String,
        List.Sublist ((attendList s uid limitOpt).filter (fun r => dtKey r == t))
          (s.rows.filter (fun r => r.userId == uid && dtKey r == t)) := by
  refine ⟨?_, ?_, ?_, ?_⟩
  · exact List.length_take_le _ _
  · intro q hq
    simp only [attendList] at hq
    have hq2 := List.mem_mergeSort.mp (List.mem_of_mem_take hq)
    simpa using List.of_mem_filter hq2
  · have hs : ((s.rows.filter (fun r => r.userId == uid)).mergeSort dtDesc).Pairwise
        (fun a b => dtDesc a b = true) :=
      List.sorted_mergeSort dtDesc_trans dtDesc_total _
    have ht : (attendList s uid limitOpt).Pairwise (fun a b => dtDesc a b = true) := by
      simp only [attendList]
      exact List.Pairwise.sublist (List.take_sublist _ _) hs
    exact ht.imp (fun hab => by simpa [dtDesc] using hab)
  · intro t
    have h1 : List.Sublist
        ((attendList s uid limitOpt).filter (fun r => dtKey r == t))
        (((s.rows.filter (fun r => r.userId == uid)).mergeSort dtDesc).filter
          (fun r => dtKey r == t)) := by
      simp only [attendList]
      exact (List.take_sublist _ _).filter _
    have hc_pair : ((s.rows.filter (fun r => r.userId == uid)).filter
        (fun r => dtKey r == t)).Pairwise (fun a b => dtDesc a b = true) := by
      apply List.pairwise_of_forall_mem_list
      intro a ha b hb
      have ha' : dtKey a = t := by simpa using List.of_mem_filter ha
      have hb' : dtKey b = t := by simpa using List.of_mem_filter hb
      simp [dtDesc, ha', hb']
    have hsub : List.Sublist
        ((s.rows.filter (fun r => r.userId == uid)).filter
          (fun r => dtKey r == t))
        ((s.rows.filter (fun r => r.userId == uid)).mergeSort dtDesc) :=
      List.sublist_mergeSort dtDesc_trans dtDesc_total hc_pair (List.filter_sublist _)
    have hsubf : List.Sublist
        ((s.rows.filter (fun r => r.userId == uid)).filter
          (fun r => dtKey r == t))
        (((s.rows.filter (fun r => r.userId == uid)).mergeSort dtDesc).filter
          (fun r => dtKey r == t)) := by
      have hh := hsub.filter (fun r => dtKey r == t)
      rwa [List.filter_filter, show
        (fun a : Record => (dtKey a == t) && (dtKey a == t)) =
          (fun a : Record => dtKey a == t) from funext (fun a => Bool.and_self _)] at hh
    have hlen : (((s.rows.filter (fun r => r.userId == uid)).mergeSort dtDesc).filter
        (fun r => dtKey r == t)).length =
        ((s.rows.filter (fun r => r.userId == uid)).filter
          (fun r => dtKey r == t)).length :=
      ((List.mergeSort_perm _ dtDesc).filter _).length_eq
    have h2 : ((s.rows.filter (fun r => r.userId == uid)).mergeSort dtDesc).filter
        (fun r => dtKey r == t) =
        (s.rows.filter (fun r => r.userId == uid)).filter
          (fun r => dtKey r == t) :=
      (hsubf.eq_of_length hlen.symm).symm
    have h3 : (s.rows.filter (fun r => r.userId == uid)).filter
        (fun r => dtKey r == t) =
        s.rows.filter (fun r => r.userId == uid && dtKey r == t) := by
      rw [List.filter_filter]
      apply List.filter_congr
      intro a _
      rw [Bool.and_comm]
    rw [h2, h3] at h1
    exact h1
